import Mathlib

/-!
Shallow embedding of `bootable/recovery/recovery.cpp` (Rockchip Android
recovery controller) together with proofs about the properties stated in
its specification.

Conventions:
* C strings and file contents are modelled as `List Char`; raw device
  bytes as `List Nat` (unsigned char semantics, the target is ARM).
* Machine-integer wraparound is made explicit (`% 2 ^ 32`, `% 2 ^ w`)
  wherever the C code relies on it.
* External collaborators (mount/format providers, the MTD partition
  table, the UI, the installer) are modelled as explicit parameters:
  the embedded functions are pure and return, besides their result, the
  observable effects (traces, state updates) the claims talk about.
-/

namespace Recovery

/-! ## clone_data_if_exist (recovery.cpp lines 298-346) -/

/-- One entry of the MTD partition table (`struct MtdPartition`,
recovery.cpp lines 173-178). -/
structure MtdPartition where
  device_index : Nat
  size : Nat
  erase_size : Nat
  name : String
deriving DecidableEq, Repr

/-- `mtd_find_partition_by_name`: external mtdutils lookup, returns the
first partition carrying the given name. -/
def mtd_find_partition_by_name (parts : List MtdPartition) (name : String) :
    Option MtdPartition :=
  parts.find? (fun p => p.name == name)

/-- recovery.cpp line 88. -/
def DATA_PARTITION_NAME : String := "userdata"

/-- recovery.cpp line 89. -/
def DATABK_PARTITION_NAME : String := "databk"

/-- Device path built by `sprintf(.., "/dev/block/mtdblock%d", ..)`
(recovery.cpp lines 337-338). -/
def mtdblock_devname (p : MtdPartition) : String :=
  "/dev/block/mtdblock" ++ toString p.device_index

/-- Environment of `clone_data_if_exist`: outcome of the external
partition scan and of the external sparse-image conversion `simg2img`
(keyed by its `(input, output)` device paths). -/
structure CloneEnv where
  scanCount : Int
  partitions : List MtdPartition
  simg2img : String → String → Int

/-- Result of `clone_data_if_exist`: the returned status, plus whether
the conversion onto the data partition was invoked at all (the only
write to the data partition in this routine happens inside
`simg2img`). -/
structure CloneResult where
  ret : Int
  cloneInvoked : Bool
deriving DecidableEq, Repr

/-- `start_to_clone` (recovery.cpp lines 298-306): runs `simg2img` from
the backup device onto the data device, `-1` on failure. -/
def start_to_clone (simg2img : String → String → Int)
    (data_devname databk_devname : String) : Int :=
  if simg2img databk_devname data_devname ≠ 0 then -1 else 0

/-- `clone_data_if_exist` (recovery.cpp lines 308-346). -/
def clone_data_if_exist (env : CloneEnv) : CloneResult :=
  if env.scanCount ≤ 0 then ⟨-1, false⟩
  else
    match mtd_find_partition_by_name env.partitions DATABK_PARTITION_NAME with
    | none => ⟨-1, false⟩
    | some databk =>
      match mtd_find_partition_by_name env.partitions DATA_PARTITION_NAME with
      | none => ⟨-1, false⟩
      | some data =>
        if start_to_clone env.simg2img (mtdblock_devname data)
            (mtdblock_devname databk) ≠ 0 then
          ⟨-1, true⟩
        else ⟨0, true⟩

/-- Concrete environment used to instantiate the clone theorem: the
partition table was scanned successfully but holds no "databk" entry. -/
def cloneEnvNoDatabk : CloneEnv :=
  ⟨1, [⟨0, 1024, 4, "userdata"⟩, ⟨1, 512, 4, "cache"⟩], fun _ _ => 0⟩

/-! ## get_fs_total_size (recovery.cpp lines 281-296) -/

/-- Conversion of a C signed value to an unsigned `w`-bit type
(`size_t` has width `w`): reduction modulo `2 ^ w`. -/
def size_t_wrap (w : Nat) (i : Int) : Nat :=
  (i % ((2 : Int) ^ w)).toNat

/-- The C test `size < 0` at recovery.cpp line 290, where `size` has the
unsigned type `size_t`: the comparison is unsigned, `0` is converted to
`size_t`, so the test is `size < 0` over naturals. -/
def size_lt_zero (size : Nat) : Bool :=
  decide (size < 0)

/-- `get_fs_total_size` (recovery.cpp lines 281-296), with `size_t` of
width `w`.  `openOk` is the outcome of `open(devname, O_RDONLY)`;
`read_ext_ret` the `int` returned by `read_ext`. -/
def get_fs_total_size (w : Nat) (openOk : Bool) (read_ext_ret : Int) : Nat :=
  if ¬ openOk then size_t_wrap w (-1)
  else
    let size := size_t_wrap w read_ext_ret
    if size_lt_zero size then size_t_wrap w (-1)
    else size

/-! ## test_sb and read_ext (recovery.cpp lines 198-279) -/

/-- Modelled from the spec: the ext4 signature constant
(`EXT4_SUPER_MAGIC`, from the external `ext4.h`, not part of this
tree). -/
def EXT4_SUPER_MAGIC : Nat := 0xEF53

/-- Modelled from the spec: the valid-filesystem state bit
(`EXT4_VALID_FS`, from the external `ext4.h`, not part of this tree). -/
def EXT4_VALID_FS : Nat := 1

/-- The fields of `struct ext4_super_block` this code consults. -/
structure Ext4SuperBlock where
  s_magic : Nat
  s_state : Nat
  s_log_block_size : Nat
  s_blocks_count_lo : Nat
deriving DecidableEq, Repr

/-- Size in bytes of `struct ext4_super_block` (external header); only
used for the short-read comparisons. -/
def SIZEOF_EXT4_SB : Nat := 1024

/-- `test_sb` (recovery.cpp lines 198-210). -/
def test_sb (sb : Ext4SuperBlock) : Int :=
  if sb.s_magic ≠ EXT4_SUPER_MAGIC then -1
  else if sb.s_state &&& EXT4_VALID_FS ≠ EXT4_VALID_FS then -1
  else 0

/-- Modelled from the spec: the block size derived by the external
`ext4_parse_sb` ("derives block size ... from the superblock fields");
ext4 block size is `1024 << s_log_block_size`. -/
def ext4_block_size (sb : Ext4SuperBlock) : Nat :=
  1024 * 2 ^ sb.s_log_block_size

/-- Modelled from the spec: `info.len`, "the filesystem's reported
total byte length", as computed by the external `ext4_parse_sb`. -/
def ext4_info_len (sb : Ext4SuperBlock) : Nat :=
  ext4_block_size sb * sb.s_blocks_count_lo

/-- Conversion of a natural to a C 32-bit `int` (two's complement). -/
def c_int_of_nat (n : Nat) : Int :=
  if n % 2 ^ 32 < 2 ^ 31 then ((n % 2 ^ 32 : Nat) : Int)
  else ((n % 2 ^ 32 : Nat) : Int) - 2 ^ 32

/-- Environment of `read_ext`: outcomes of the seeks and reads on the
device file descriptor.  `sb` is the superblock buffer contents,
`bgDescBlocks` the descriptor-block count derived by the external
superblock parser (modelled from the spec). -/
structure ReadExtEnv where
  seekSbOk : Bool
  sbReadRet : Int
  sb : Ext4SuperBlock
  seekLenOk : Bool
  seekBgOk : Bool
  bgReadRet : Int
  bgDescBlocks : Nat

/-- Result of `read_ext`: the returned `int`, plus whether the
block-group-descriptor read was ever attempted. -/
structure ReadExtResult where
  ret : Int
  bgDescReadAttempted : Bool
deriving DecidableEq, Repr

/-- `read_ext` (recovery.cpp lines 212-279). -/
def read_ext (env : ReadExtEnv) : ReadExtResult :=
  if ¬ env.seekSbOk then ⟨-1, false⟩
  else if env.sbReadRet < 0 then ⟨-1, false⟩
  else if env.sbReadRet ≠ (SIZEOF_EXT4_SB : Int) then ⟨-1, false⟩
  else if test_sb env.sb ≠ 0 then ⟨-1, false⟩
  else if ¬ env.seekLenOk then ⟨-1, false⟩
  else if ¬ env.seekBgOk then ⟨-1, false⟩
  else if env.bgReadRet < 0 then ⟨-1, true⟩
  else if env.bgReadRet ≠ ((ext4_block_size env.sb * env.bgDescBlocks : Nat) : Int) then ⟨-1, true⟩
  else ⟨c_int_of_nat (ext4_info_len env.sb), true⟩

/-! ## copy_log_file and erase_volume (recovery.cpp lines 473-493, 734-750) -/

/-- `copy_log_file` (recovery.cpp lines 473-493).  `destOpenOk` is the
outcome of `fopen_path(destination, ..)`, `srcPresent` of
`fopen(source, "r")`.  Returns the new destination contents and the new
value of the global `tmplog_offset` (which the routine only advances in
append mode, to `ftell` after reading the source to its end). -/
def copy_log_file (destOpenOk srcPresent : Bool) (source dest : List Char)
    (append : Bool) (tmplog_offset : Nat) : List Char × Nat :=
  if ¬ destOpenOk then (dest, tmplog_offset)
  else if ¬ srcPresent then ((if append then dest else []), tmplog_offset)
  else
    let start := if append then tmplog_offset else 0
    let newDest := (if append then dest else []) ++ source.drop start
    let newOff := if append then max tmplog_offset source.length else tmplog_offset
    (newDest, newOff)

/-- `erase_volume` (recovery.cpp lines 734-750): resets the global
`tmplog_offset` to zero exactly when the volume is `"/cache"`, then
returns the status of the external `format_volume` unchanged. -/
def erase_volume (formatResult : Int) (volume : String) (tmplog_offset : Nat) :
    Int × Nat :=
  (formatResult, if volume = "/cache" then 0 else tmplog_offset)

/-! ## finish_recovery (recovery.cpp lines 499-570) -/

/-- State of the persisted bootloader control block as finish-up sees
it: cleared to all-zero bytes, or holding previously written fields. -/
inductive BcbState
  | zeroed
  | written (command recovery : List Char)
deriving DecidableEq, Repr

/-- Environment of `finish_recovery`: the globals it reads but never
writes (`locale`, `updatepath`, the rockchip `bClearbootmessage` flag),
the outcome of mounting `/cache` (which gates every `fopen_path` and
the command-file unlink), and the contents of the two temporary log
files in `/tmp`. -/
structure FinishEnv where
  locale : Option (List Char)
  cacheMountOk : Bool
  tmplogPresent : Bool
  tmplog : List Char
  tmpInstallPresent : Bool
  tmpInstall : List Char
  updatepath : List Char
  bClearbootmessage : Bool

/-- The observable session state `finish_recovery` reads and writes:
the `/cache/recovery` artifacts, their permission bits, the control
block, and the globals `bAutoUpdateComplete` and `tmplog_offset`. -/
structure FinishState where
  intentFile : Option (List Char)
  localeFile : Option (List Char)
  logFile : List Char
  lastLogFile : List Char
  lastInstallFile : List Char
  logFileMode : Nat
  logFileOwner : Nat × Nat
  lastLogFileMode : Nat
  lastInstallFileMode : Nat
  bcb : BcbState
  flagFile : Option (List Char)
  bAutoUpdateComplete : Bool
  cmdFilePresent : Bool
  tmplog_offset : Nat
deriving DecidableEq, Repr

/-- `finish_recovery` (recovery.cpp lines 499-570).  Returns the new
state together with whether the command-file removal step warned
(`LOGW "Can't unlink"`, which the code emits only when `/cache` cannot
be mounted or `unlink` fails with an error other than `ENOENT`; a
missing command file is not an error). -/
def finish_recovery (env : FinishEnv) (send_intent : Option (List Char))
    (st : FinishState) : FinishState × Bool :=
  let c1 := copy_log_file env.cacheMountOk env.tmplogPresent env.tmplog
    st.logFile true st.tmplog_offset
  let c2 := copy_log_file env.cacheMountOk env.tmplogPresent env.tmplog
    st.lastLogFile false c1.2
  let c3 := copy_log_file env.cacheMountOk env.tmpInstallPresent env.tmpInstall
    st.lastInstallFile false c2.2
  ({ intentFile :=
      match send_intent with
      | some s => if env.cacheMountOk then some s else st.intentFile
      | none => st.intentFile
   , localeFile :=
      match env.locale with
      | some l => if env.cacheMountOk then some l else st.localeFile
      | none => st.localeFile
   , logFile := c1.1
   , lastLogFile := c2.1
   , lastInstallFile := c3.1
   , logFileMode := if env.cacheMountOk then 0o600 else st.logFileMode
   , logFileOwner := if env.cacheMountOk then (1000, 1000) else st.logFileOwner
   , lastLogFileMode := if env.cacheMountOk then 0o640 else st.lastLogFileMode
   , lastInstallFileMode := if env.cacheMountOk then 0o644 else st.lastInstallFileMode
   , bcb := if env.bClearbootmessage ≠ true then BcbState.zeroed else st.bcb
   , flagFile :=
      if st.bAutoUpdateComplete = true then
        (if env.cacheMountOk then some ("success$path=".data ++ env.updatepath)
         else st.flagFile)
      else st.flagFile
   , bAutoUpdateComplete :=
      if st.bAutoUpdateComplete = true then false else st.bAutoUpdateComplete
   , cmdFilePresent := if env.cacheMountOk then false else st.cmdFilePresent
   , tmplog_offset := c3.2 },
   if env.cacheMountOk then false else true)

/-- Concrete environment used to instantiate the finish-up theorem:
`/cache` mounts, both temporary logs exist, an auto update completed,
and the control block still holds the boot-recovery command. -/
def finishEnvW : FinishEnv :=
  ⟨some "en_US".data, true, true, "log line one\nlog line two\n".data,
   true, "1\n".data, "/cache/update.zip".data, false⟩

/-- Concrete session state used to instantiate the finish-up theorem. -/
def finishStW : FinishState :=
  ⟨none, none, "old log\n".data, [], [], 0o644, (0, 0), 0o644, 0o644,
   BcbState.written "boot-recovery".data "recovery\n".data, none, true, true, 4⟩

/-! ## get_menu_selection (recovery.cpp lines 865-915) -/

/-- Modelled from the spec: the key-handling results a device's
`HandleMenuKey` may return besides an absolute item index (`device.h`
is not part of this tree); all are negative, matching the
`action < 0` dispatch in the loop. -/
def kNoAction : Int := -1

/-- Modelled from the spec, see `kNoAction`. -/
def kHighlightUp : Int := -2

/-- Modelled from the spec, see `kNoAction`. -/
def kHighlightDown : Int := -3

/-- Modelled from the spec, see `kNoAction`. -/
def kInvokeItem : Int := -4

/-- One return from `ui->WaitKey()` together with the UI text-visibility
state the loop samples right after it: `key = -1` means the wait timed
out. -/
structure KeyEvent where
  key : Int
  visible : Bool
  everVisible : Bool
deriving DecidableEq, Repr

/-- How a run of the menu loop ended: a timeout with text never shown
(the code returns `0`, the automatic-reboot outcome), or a chosen item
index. -/
inductive MenuOutcome
  | timeoutReboot
  | chosen (item : Int)
deriving DecidableEq, Repr

/-- Environment of `get_menu_selection`: the device's key-mapping
strategy, the UI's selection setter (which clamps/wraps the highlight),
and the `menu_only` flag. -/
structure MenuEnv where
  handleMenuKey : Int → Bool → Int
  selectMenu : Int → Int
  menuOnly : Bool

/-- The `while (chosen_item < 0)` loop of `get_menu_selection`
(recovery.cpp lines 876-911), driven by the finite list of key events
the session delivers; `none` means the events ran out with the loop
still blocked waiting for the next key. -/
def menu_loop (env : MenuEnv) : List KeyEvent → Int → Option MenuOutcome
  | [], _ => none
  | e :: rest, selected =>
    if e.key = -1 then
      if e.everVisible then menu_loop env rest selected
      else some .timeoutReboot
    else
      if env.handleMenuKey e.key e.visible < 0 then
        if env.handleMenuKey e.key e.visible = kHighlightUp then
          menu_loop env rest (env.selectMenu (selected - 1))
        else if env.handleMenuKey e.key e.visible = kHighlightDown then
          menu_loop env rest (env.selectMenu (selected + 1))
        else if env.handleMenuKey e.key e.visible = kInvokeItem then
          if 0 ≤ selected then some (.chosen selected)
          else menu_loop env rest selected
        else menu_loop env rest selected
      else
        if ¬ env.menuOnly then some (.chosen (env.handleMenuKey e.key e.visible))
        else menu_loop env rest selected

/-- Concrete environment used to instantiate the menu-loop theorem:
key 10 invokes the highlighted item, everything else is ignored. -/
def menuEnvInvokeOn10 : MenuEnv :=
  ⟨fun k _ => if k = 10 then kInvokeItem else kNoAction, fun s => s, true⟩

/-! ## get_args (recovery.cpp lines 376-436) -/

/-- recovery.cpp line 165. -/
def MAX_ARG_LENGTH : Nat := 4096

/-- recovery.cpp line 166. -/
def MAX_ARGS : Nat := 100

/-- Modelled from the spec: the BCB `recovery` field is a fixed-size
byte field ("fields are NUL-padded/truncated, never overrun");
`bootloader.h` is not part of this tree, so the concrete size is taken
from the standard bootloader-message layout (1024 bytes).  All general
theorems are parametric in the size; this constant only instantiates
them. -/
def RECOVERY_FIELD_SIZE : Nat := 1024

/-- Modelled from the spec: size of the BCB `command` field in the
standard bootloader-message layout. -/
def COMMAND_FIELD_SIZE : Nat := 32

/-- BSD `strlcpy`: copies at most `size - 1` characters and always
NUL-terminates (the model keeps the C-string contents, without the
terminator). -/
def strlcpy (src : List Char) (size : Nat) : List Char :=
  src.take (size - 1)

/-- BSD `strlcat`: appends to `dst` so that the total length stays at
most `size - 1`; if `dst` already fills the buffer nothing is
appended. -/
def strlcat (dst src : List Char) (size : Nat) : List Char :=
  if size ≤ dst.length then dst
  else dst ++ src.take (size - 1 - dst.length)

/-- The token sequence produced by repeated `strtok(.., delims)`: the
maximal nonempty runs of non-delimiter characters. -/
def tokenize (delims : List Char) : List Char → List (List Char)
  | [] => []
  | c :: rest =>
    if delims.contains c then tokenize delims rest
    else (c :: rest.takeWhile (fun d => ! delims.contains d)) ::
      tokenize delims (rest.dropWhile (fun d => ! delims.contains d))
termination_by s => s.length
decreasing_by
  · simp_wf
  · simp_wf
    have h := (List.dropWhile_sublist (fun d => ! decide (d ∈ delims))
      (l := rest)).length_le
    omega

/-- The write-back half of `get_args` (recovery.cpp lines 428-434):
`strlcpy(boot.recovery, "recovery\n", size)` followed by
`strlcat(boot.recovery, argv[i], size); strlcat(boot.recovery, "\n",
size)` for every argument index `i ≥ 1`. -/
def encode_recovery (argvTail : List (List Char)) (size : Nat) : List Char :=
  argvTail.foldl (fun acc a => strlcat (strlcat acc a size) ['\n'] size)
    (strlcpy "recovery\n".data size)

/-- The BCB-decoding half of `get_args` (recovery.cpp lines 391-405):
`strtok` the recovery field on `"\n"`; if the first token is exactly
"recovery", the new argv is that token followed by at most
`MAX_ARGS - 1` further tokens; otherwise argv is left alone (`none`). -/
def decode_bcb (recovery : List Char) : Option (List (List Char)) :=
  match tokenize ['\n'] recovery with
  | [] => none
  | t :: rest =>
    if t = "recovery".data then some (t :: rest.take (MAX_ARGS - 1))
    else none

/-- `fgets(buf, size, fp)` on the remaining file contents: reads at
most `size - 1` characters, stopping after a newline. -/
def fgets_take : Nat → List Char → List Char
  | 0, _ => []
  | _ + 1, [] => []
  | n + 1, c :: rest => if c = '\n' then [c] else c :: fgets_take n rest

/-- The command-file loop of `get_args` (recovery.cpp lines 415-419):
up to `maxLines` iterations of `fgets` into a `MAX_ARG_LENGTH` buffer
followed by `strtok(buf, "\r\n")`.  Each entry is the first CR/LF-free
token of its line — `none` when the line consists solely of CR/LF
characters, in which case `strtok` returns `NULL` and the code passes
`NULL` to `strdup` (undefined behaviour). -/
def read_cmdfile_args : Nat → List Char → List (Option (List Char))
  | 0, _ => []
  | _ + 1, [] => []
  | n + 1, c :: cs =>
    (tokenize ['\r', '\n'] (fgets_take (MAX_ARG_LENGTH - 1) (c :: cs))).head? ::
      read_cmdfile_args n
        ((c :: cs).drop (fgets_take (MAX_ARG_LENGTH - 1) (c :: cs)).length)

/-- Input of `get_args`: the live `argc`/`argv` (as the list of
arguments), the BCB recovery field's C-string contents, the command
file's contents (`none` when `fopen_path` fails), and the recovery
field size. -/
structure GetArgsInput where
  argv : List (List Char)
  bootRecovery : List Char
  cmdfile : Option (List Char)
  recSize : Nat

/-- Result of `get_args`: the resolved argv, which source supplied it
(the `LOGI "Got arguments from ..."` branches), whether the
command-file path hit the `strdup(NULL)` undefined behaviour, and the
`command`/`recovery` fields written back to the control block. -/
structure GetArgsResult where
  argv : List (List Char)
  fromBootMessage : Bool
  fromCommandFile : Bool
  nullDeref : Bool
  bootCommandOut : List Char
  bootRecoveryOut : List Char
deriving DecidableEq, Repr

/-- `get_args` (recovery.cpp lines 376-436).  When `nullDeref` is set
the real program crashes inside the command-file loop; the remaining
fields then describe the state the model would reach were `strdup`
total. -/
def get_args (inp : GetArgsInput) : GetArgsResult :=
  let step1 : List (List Char) × Bool :=
    if inp.argv.length ≤ 1 then
      match decode_bcb inp.bootRecovery with
      | some a => (a, true)
      | none => (inp.argv, false)
    else (inp.argv, false)
  let step2 : List (List Char) × Bool × Bool :=
    if step1.1.length ≤ 1 then
      match inp.cmdfile with
      | some content =>
        ((step1.1.headD []) ::
          ((read_cmdfile_args (MAX_ARGS - 1) content).takeWhile
            (fun o => o.isSome)).map (fun o => o.getD []),
         true,
         decide (((read_cmdfile_args (MAX_ARGS - 1) content).takeWhile
            (fun o => o.isSome)).length <
           (read_cmdfile_args (MAX_ARGS - 1) content).length))
      | none => (step1.1, false, false)
    else (step1.1, false, false)
  { argv := step2.1
  , fromBootMessage := step1.2
  , fromCommandFile := step2.2.1
  , nullDeref := step2.2.2
  , bootCommandOut := strlcpy "boot-recovery".data COMMAND_FIELD_SIZE
  , bootRecoveryOut := encode_recovery (step2.1.drop 1) inp.recSize }

/-! ## set_fat32_volumename (recovery.cpp lines 571-732) -/

/-- One operation performed on the raw partition device opened by
`set_fat32_volumename`: the `open`, a 512-byte sector read, or a
512-byte sector write. -/
inductive DevOp
  | openDev
  | readSec (sec : Nat)
  | writeSec (sec : Nat) (data : List Nat)
deriving DecidableEq, Repr

/-- Byte access into a sector buffer (unsigned char semantics; the
target compiles `char` unsigned). -/
def byteAt (buf : List Nat) (i : Nat) : Nat := buf.getD i 0

/-- `*(unsigned short *)(buf + i)`, little-endian. -/
def le16 (buf : List Nat) (i : Nat) : Nat :=
  byteAt buf i + 256 * byteAt buf (i + 1)

/-- `*(unsigned int *)(buf + i)`, little-endian. -/
def le32 (buf : List Nat) (i : Nat) : Nat :=
  byteAt buf i + 256 * byteAt buf (i + 1) + 65536 * byteAt buf (i + 2) +
    16777216 * byteAt buf (i + 3)

/-- C `toupper` on the ASCII range. -/
def c_toupper (c : Char) : Char :=
  if 'a' ≤ c ∧ c ≤ 'z' then Char.ofNat (c.toNat - 32) else c

/-- The 11-byte volume label built at recovery.cpp lines 651-661:
`name` uppercased, truncated to 11 characters, space-padded. -/
def fat_volume_name (name : List Char) : List Nat :=
  ((name.take 11).map (fun c => (c_toupper c).toNat)) ++
    List.replicate (11 - min name.length 11) 0x20

/-- The directory-entry scan inside one sector (recovery.cpp lines
675-701): the first of the 16 directory entries that is either empty
(first byte zero) or already a volume-label entry (attribute bit 0x08
set). -/
def find_entry_slot (buf : List Nat) : Option Nat :=
  (List.range 16).find? (fun j =>
    (byteAt buf (j * 32) == 0) || (byteAt buf (j * 32 + 0xB) &&& 8 != 0))

/-- The 512-byte sector as rewritten in place: the chosen 32-byte entry
becomes the 11 label bytes, the volume-label attribute `8`, and 20 zero
bytes (`memset(p,0,32); memcpy(p,volumeName,11); p[11] = 8`). -/
def patch_sector (buf vn : List Nat) (j : Nat) : List Nat :=
  buf.take (j * 32) ++ (vn ++ 8 :: List.replicate 20 0) ++ buf.drop (j * 32 + 32)

/-- Outcome of scanning the sectors of one cluster. -/
inductive ScanOutcome
  | errRead
  | found
  | notFound
deriving DecidableEq, Repr

/-- The `for (i = 0; i < nSecPerCluster; i++)` loop (recovery.cpp lines
666-704): read each sector of the cluster in turn; a short read aborts
with error `-9`; the first sector holding a usable directory entry is
patched and written back. -/
def fat_scan_cluster (disk : Nat → List Nat) (vn : List Nat) :
    Nat → Nat → List DevOp × ScanOutcome
  | _, 0 => ([], .notFound)
  | sec, n + 1 =>
    if (disk sec).length ≠ 512 then ([.readSec sec], .errRead)
    else
      match find_entry_slot (disk sec) with
      | some j =>
        ([.readSec sec, .writeSec sec (patch_sector (disk sec) vn j)], .found)
      | none =>
        ((DevOp.readSec sec) :: (fat_scan_cluster disk vn (sec + 1) n).1,
          (fat_scan_cluster disk vn (sec + 1) n).2)

/-- The `while (clusterNo != 0)` cluster-chain walk (recovery.cpp lines
662-719), with explicit 32-bit wraparound on the unsigned sector
arithmetic.  The C loop has no iteration bound (a cyclic FAT chain
loops forever), so the model carries fuel: `none` means the fuel ran
out with the real loop still running.  `some 0` is success (entry
found and written), `some (-9)`/`some (-10)` the two short-read errors,
`some (-11)` the chain ending with no usable entry. -/
def fat_walk (disk : Nat → List Nat) (vn : List Nat)
    (nSecPerCluster clusterStartLba nReservedSec : Nat) :
    Nat → Nat → List DevOp × Option Int
  | _, 0 => ([], some (-11))
  | 0, _ => ([], none)
  | fuel + 1, cn =>
    let curSec := ((cn + (2 ^ 32 - 2)) % 2 ^ 32 * nSecPerCluster +
      clusterStartLba) % 2 ^ 32
    let s := fat_scan_cluster disk vn curSec nSecPerCluster
    match s.2 with
    | .errRead => (s.1, some (-9))
    | .found => (s.1, some 0)
    | .notFound =>
      let fatSec := ((cn * 4) % 2 ^ 32 / 512 + nReservedSec) % 2 ^ 32
      if (disk fatSec).length ≠ 512 then
        (s.1 ++ [DevOp.readSec fatSec], some (-10))
      else
        let next0 := le32 (disk fatSec) (cn * 4 % 512)
        let next := if next0 = 0xFFFFFFF then 0 else next0
        (s.1 ++ DevOp.readSec fatSec ::
          (fat_walk disk vn nSecPerCluster clusterStartLba nReservedSec fuel next).1,
         (fat_walk disk vn nSecPerCluster clusterStartLba nReservedSec fuel next).2)

/-- Environment of `set_fat32_volumename`: outcomes of the external
unmount/volume-table/partition-table/open steps, and the raw device
contents, sector by sector (a sector whose byte list is not exactly 512
long models a short `read`). -/
structure FatEnv where
  unmountOk : Bool
  volFound : Bool
  partFound : Bool
  openOk : Bool
  disk : Nat → List Nat

/-- `set_fat32_volumename` (recovery.cpp lines 571-732).  Returns the
trace of raw-device operations alongside the result (`none`: the
unbounded cluster walk outlived the fuel).  The boot-sector geometry
fields (`nSecPerCluster` at 0xD, reserved sectors at 0xE, FAT count at
0x10, sectors per FAT at 0x24, root cluster at 0x2C; the total-sector
count at 0x20 is read but never used) are extracted from the in-memory
sector buffer after the three DBR checks; the empty-name check at
lines 652-657 comes after them and before the cluster walk. -/
def set_fat32_volumename (env : FatEnv) (name : List Char) (fuel : Nat) :
    List DevOp × Option Int :=
  if ¬ env.unmountOk then ([], some (-1))
  else if ¬ env.volFound then ([], some (-2))
  else if ¬ env.partFound then ([], some (-3))
  else if ¬ env.openOk then ([], some (-4))
  else if (env.disk 0).length ≠ 512 then ([.openDev, .readSec 0], some (-5))
  else if ¬ (byteAt (env.disk 0) 0x52 = 70 ∧ byteAt (env.disk 0) 0x53 = 65 ∧
      byteAt (env.disk 0) 0x54 = 84 ∧ byteAt (env.disk 0) 0x55 = 51 ∧
      byteAt (env.disk 0) 0x56 = 50) then
    ([.openDev, .readSec 0], some (-6))
  else if ¬ (byteAt (env.disk 0) 0x1FE = 0x55 ∧ byteAt (env.disk 0) 0x1FF = 0xAA) then
    ([.openDev, .readSec 0], some (-7))
  else if name.length = 0 then ([.openDev, .readSec 0], some (-8))
  else
    let buf := env.disk 0
    let w := fat_walk env.disk (fat_volume_name name) (byteAt buf 0xD)
      ((le16 buf 0xE + byteAt buf 0x10 * le32 buf 0x24) % 2 ^ 32)
      (le16 buf 0xE) fuel (le32 buf 0x2C)
    (DevOp.openDev :: DevOp.readSec 0 :: w.1, w.2)

/-- A 512-byte boot sector carrying the FAT32 signature at offset 0x52
and the 0x55AA end marker: enough to pass all three DBR checks. -/
def validDbrSector : List Nat :=
  List.replicate 82 0 ++ [70, 65, 84, 51, 50] ++ List.replicate 423 0 ++ [85, 170]

/-- Concrete device for the FAT32 theorems: every step up to the DBR
validation succeeds. -/
def fatEnvValidDbr : FatEnv :=
  ⟨true, true, true, true, fun _ => validDbrSector⟩

end Recovery

namespace Recovery

/-! ## Theorems -/

/-! ### Helper lemmas about `tokenize`, `strlcat` and `encode_recovery` -/

lemma takeWhile_append_all (p : Char → Bool) (a : List Char) (d : Char)
    (t : List Char) (ha : ∀ c ∈ a, p c = true) (hd : p d = false) :
    (a ++ d :: t).takeWhile p = a := by
  induction a with
  | nil => simp [List.takeWhile_cons, hd]
  | cons b bs ih =>
    have hb : p b = true := ha b (by simp)
    simp only [List.cons_append, List.takeWhile_cons, hb, if_true]
    rw [ih (fun c hc => ha c (by simp [hc]))]

lemma dropWhile_append_all (p : Char → Bool) (a : List Char) (d : Char)
    (t : List Char) (ha : ∀ c ∈ a, p c = true) (hd : p d = false) :
    (a ++ d :: t).dropWhile p = d :: t := by
  induction a with
  | nil => simp [List.dropWhile_cons, hd]
  | cons b bs ih =>
    have hb : p b = true := ha b (by simp)
    simp only [List.cons_append, List.dropWhile_cons, hb, if_true]
    exact ih (fun c hc => ha c (by simp [hc]))

lemma tokenize_nil (delims : List Char) : tokenize delims [] = [] := by
  simp [tokenize]

lemma tokenize_cons_delim (delims : List Char) (c : Char) (rest : List Char)
    (h : delims.contains c = true) :
    tokenize delims (c :: rest) = tokenize delims rest := by
  rw [tokenize, if_pos h]

lemma tokenize_cons_nondelim (delims : List Char) (c : Char) (rest : List Char)
    (h : delims.contains c = false) :
    tokenize delims (c :: rest) =
      (c :: rest.takeWhile (fun d => ! delims.contains d)) ::
        tokenize delims (rest.dropWhile (fun d => ! delims.contains d)) := by
  rw [tokenize, if_neg (by simpa using h)]

lemma tokenize_all_delims (delims : List Char) (s : List Char)
    (h : ∀ c ∈ s, delims.contains c = true) : tokenize delims s = [] := by
  induction s with
  | nil => exact tokenize_nil delims
  | cons c rest ih =>
    rw [tokenize_cons_delim delims c rest (h c (by simp))]
    exact ih (fun c hc => h c (by simp [hc]))

lemma tokenize_leading_token (delims : List Char) (a : List Char) (d : Char)
    (t : List Char) (hne : a ≠ [])
    (ha : ∀ c ∈ a, delims.contains c = false) (hd : delims.contains d = true) :
    tokenize delims (a ++ d :: t) = a :: tokenize delims t := by
  match a, hne with
  | b :: bs, _ =>
    have hb : delims.contains b = false := ha b (by simp)
    have hbs : ∀ c ∈ bs, (fun x => ! delims.contains x) c = true := by
      intro c hc
      simpa using ha c (by simp [hc])
    rw [List.cons_append, tokenize_cons_nondelim delims b _ hb,
      takeWhile_append_all _ bs d t hbs (by simpa using hd),
      dropWhile_append_all _ bs d t hbs (by simpa using hd),
      tokenize_cons_delim delims d t hd]

lemma tokenize_flatten (args : List (List Char))
    (hne : ∀ a ∈ args, a ≠ []) (hnl : ∀ a ∈ args, '\n' ∉ a) :
    tokenize ['\n'] ((args.map (fun a => a ++ ['\n'])).flatten) = args := by
  induction args with
  | nil => simp [tokenize_nil]
  | cons a rest ih =>
    have h1 : ((a :: rest).map (fun a => a ++ ['\n'])).flatten =
        a ++ '\n' :: (rest.map (fun a => a ++ ['\n'])).flatten := by
      simp [List.flatten_cons, List.append_assoc]
    rw [h1, tokenize_leading_token ['\n'] a '\n' _ (hne a (by simp)) ?_ (by decide)]
    · rw [ih (fun x hx => hne x (by simp [hx])) (fun x hx => hnl x (by simp [hx]))]
    · intro c hc
      have : c ≠ '\n' := fun h => hnl a (by simp) (h ▸ hc)
      simp [this]

lemma strlcat_of_fits (dst src : List Char) (size : Nat)
    (h : dst.length + src.length + 1 ≤ size) :
    strlcat dst src size = dst ++ src := by
  unfold strlcat
  rw [if_neg (by omega), List.take_of_length_le (by omega)]

lemma strlcat_length_le (dst src : List Char) (size : Nat)
    (h : dst.length ≤ size - 1) :
    (strlcat dst src size).length ≤ size - 1 := by
  unfold strlcat
  split_ifs with h1
  · exact h
  · rw [List.length_append]
    have := List.length_take_le (size - 1 - dst.length) src
    omega

lemma encode_recovery_fold (args : List (List Char)) (size : Nat)
    (acc : List Char)
    (hfit : acc.length + ((args.map (fun a => a.length + 1)).sum) + 1 ≤ size) :
    args.foldl (fun acc a => strlcat (strlcat acc a size) ['\n'] size) acc =
      acc ++ (args.map (fun a => a ++ ['\n'])).flatten := by
  induction args generalizing acc with
  | nil => simp
  | cons a rest ih =>
    have hsum : acc.length + (a.length + 1) +
        ((rest.map (fun a => a.length + 1)).sum) + 1 ≤ size := by
      simp only [List.map_cons, List.sum_cons] at hfit
      omega
    have h1 : strlcat acc a size = acc ++ a :=
      strlcat_of_fits acc a size (by omega)
    have h2 : strlcat (acc ++ a) ['\n'] size = acc ++ a ++ ['\n'] := by
      have hl : (acc ++ a).length + 1 + 1 ≤ size := by
        rw [List.length_append]; omega
      simpa using strlcat_of_fits (acc ++ a) ['\n'] size (by simpa using hl)
    have h3 : (acc ++ a ++ ['\n']).length +
        ((rest.map (fun a => a.length + 1)).sum) + 1 ≤ size := by
      rw [List.length_append, List.length_append]
      simp only [List.length_cons, List.length_nil]
      omega
    rw [List.foldl_cons, h1, h2, ih (acc ++ a ++ ['\n']) h3]
    simp [List.flatten_cons, List.append_assoc]

lemma encode_recovery_eq (args : List (List Char)) (size : Nat)
    (hfit : 10 + ((args.map (fun a => a.length + 1)).sum) ≤ size) :
    encode_recovery args size =
      "recovery".data ++ '\n' :: (args.map (fun a => a ++ ['\n'])).flatten := by
  unfold encode_recovery
  have hlen : ("recovery\n".data).length = 9 := rfl
  have h0 : strlcpy "recovery\n".data size = "recovery\n".data := by
    unfold strlcpy
    exact List.take_of_length_le (by omega)
  rw [h0, encode_recovery_fold args size _ (by omega)]
  rfl

lemma encode_recovery_length_le (args : List (List Char)) (size : Nat) :
    (encode_recovery args size).length ≤ size - 1 := by
  unfold encode_recovery
  have h0 : (strlcpy "recovery\n".data size).length ≤ size - 1 := by
    unfold strlcpy
    have := List.length_take_le (size - 1) "recovery\n".data
    omega
  generalize strlcpy "recovery\n".data size = acc at h0
  induction args generalizing acc with
  | nil => simpa using h0
  | cons a rest ih =>
    rw [List.foldl_cons]
    exact ih _ (strlcat_length_le _ _ _ (strlcat_length_le _ _ _ h0))

lemma decode_encode_bcb (args : List (List Char)) (size : Nat)
    (hne : ∀ a ∈ args, a ≠ []) (hnl : ∀ a ∈ args, '\n' ∉ a)
    (hfit : 10 + ((args.map (fun a => a.length + 1)).sum) ≤ size) :
    decode_bcb (encode_recovery args size) =
      some ("recovery".data :: args.take (MAX_ARGS - 1)) := by
  rw [encode_recovery_eq args size hfit]
  unfold decode_bcb
  rw [tokenize_leading_token ['\n'] "recovery".data '\n' _ (by decide)
    (by decide) (by decide), tokenize_flatten args hne hnl]
  simp

lemma takeWhile_isSome_lt {α : Type} (l : List (Option α)) (h : none ∈ l) :
    (l.takeWhile (fun o => o.isSome)).length < l.length := by
  induction l with
  | nil => simp at h
  | cons o rest ih =>
    cases o with
    | none => simp [List.takeWhile_cons]
    | some a =>
      have hr : none ∈ rest := by simpa using h
      have := ih hr
      simp only [List.takeWhile_cons, Option.isSome_some, if_true,
        List.length_cons]
      omega

lemma read_cmdfile_blank_first (n : Nat) (rest : List Char) :
    none ∈ read_cmdfile_args (n + 1) ('\n' :: rest) := by
  rw [read_cmdfile_args]
  have hf : fgets_take (MAX_ARG_LENGTH - 1) ('\n' :: rest) = ['\n'] := by
    rw [show MAX_ARG_LENGTH - 1 = 4094 + 1 by norm_num [MAX_ARG_LENGTH],
      fgets_take, if_pos rfl]
  rw [hf, tokenize_cons_delim ['\r', '\n'] '\n' [] (by decide), tokenize_nil]
  simp

lemma get_args_bcb_path (prog rec : List Char) (cmdf : Option (List Char))
    (sz : Nat) (decoded : List (List Char))
    (hdec : decode_bcb rec = some decoded) (hlen : ¬ (decoded.length ≤ 1)) :
    (get_args ⟨[prog], rec, cmdf, sz⟩).argv = decoded := by
  unfold get_args
  simp only [hdec, List.length_cons, List.length_nil, hlen, if_false,
    Nat.le_refl, if_true]

/-- C1 (amended): the `get_args` control-block round-trip.  The
encoding never writes past the fixed-size recovery field (for any field
size and any list); and for every nonempty list of at most
`MAX_ARGS - 1 = 99` arguments, each nonempty and newline-free, whose
encoding fits inside the field, writing the list into the BCB recovery
field and decoding it on a boot with `argc ≤ 1` reproduces exactly
`"recovery"` followed by the same ordered list.  A list longer than 99
entries is truncated to its first 99 entries (and a list whose encoding
exceeds the field is truncated by `strlcat`), so the bound claimed by
the spec, 100 entries of up to 4095 bytes, is wrong on both counts. -/
theorem bcb_roundtrip (args : List (List Char)) (size : Nat)
    (prog : List Char) (cmdf : Option (List Char))
    (hargs : args ≠ [])
    (hne : ∀ a ∈ args, a ≠ [])
    (hnl : ∀ a ∈ args, '\n' ∉ a)
    (hfit : 10 + ((args.map (fun a => a.length + 1)).sum) ≤ size) :
    (∀ (args' : List (List Char)) (sz : Nat),
      (encode_recovery args' sz).length ≤ sz - 1) ∧
    (get_args ⟨[prog], encode_recovery args size, cmdf, size⟩).argv =
      "recovery".data :: args.take (MAX_ARGS - 1) ∧
    (args.length ≤ MAX_ARGS - 1 →
      (get_args ⟨[prog], encode_recovery args size, cmdf, size⟩).argv =
        "recovery".data :: args) := by
  have hdec := decode_encode_bcb args size hne hnl hfit
  have htk : args.take (MAX_ARGS - 1) ≠ [] := by
    cases args with
    | nil => exact absurd rfl hargs
    | cons a r => simp [MAX_ARGS]
  have hres : (get_args ⟨[prog], encode_recovery args size, cmdf, size⟩).argv =
      "recovery".data :: args.take (MAX_ARGS - 1) := by
    refine get_args_bcb_path prog _ cmdf size _ hdec ?_
    cases h : args.take (MAX_ARGS - 1) with
    | nil => exact absurd h htk
    | cons a r => simp [h]
  refine ⟨fun args' sz => encode_recovery_length_le args' sz, hres, fun hlen99 => ?_⟩
  rw [hres, List.take_of_length_le hlen99]

/-- Witness for `bcb_roundtrip`: the factory-reset argument list
`["--wipe_data", "--wipe_cache"]` round-trips through a 1024-byte
recovery field. -/
theorem bcb_roundtrip_witness :
    (get_args ⟨[['p']], encode_recovery ["--wipe_data".data, "--wipe_cache".data] 1024,
        none, 1024⟩).argv =
      "recovery".data :: ["--wipe_data".data, "--wipe_cache".data] :=
  (bcb_roundtrip ["--wipe_data".data, "--wipe_cache".data] 1024 ['p'] none
    (by decide) (by decide) (by decide) (by decide)).2.2 (by decide)

/-- Counterexample to C1 as stated: a list of exactly 100 one-byte
entries (well within the claimed bounds of "at most 100 entries each at
most 4095 bytes", and whose 209-byte encoding fits the recovery field
with room to spare) does NOT round-trip: the decode loop stops after
`MAX_ARGS - 1 = 99` entries, so the hundredth entry is lost. -/
theorem bcb_roundtrip_counterexample :
    (get_args ⟨[['p']], encode_recovery (List.replicate 100 ['a']) RECOVERY_FIELD_SIZE,
        none, RECOVERY_FIELD_SIZE⟩).argv ≠
      "recovery".data :: List.replicate 100 ['a'] := by
  have htake : (List.replicate 100 (['a'] : List Char)).take (MAX_ARGS - 1) =
      List.replicate 99 ['a'] := by
    rw [List.take_replicate]
    norm_num [MAX_ARGS]
  have hdec := decode_encode_bcb (List.replicate 100 ['a']) RECOVERY_FIELD_SIZE
    (by decide) (by decide) (by decide)
  rw [htake] at hdec
  have hres : (get_args ⟨[['p']],
      encode_recovery (List.replicate 100 ['a']) RECOVERY_FIELD_SIZE,
      none, RECOVERY_FIELD_SIZE⟩).argv =
      "recovery".data :: List.replicate 99 ['a'] :=
    get_args_bcb_path ['p'] _ none RECOVERY_FIELD_SIZE _ hdec (by simp)
  rw [hres]
  intro h
  have h2 := congrArg List.length h
  simp [List.length_replicate] at h2

/-- C3: when the process is invoked with two or more live arguments,
`get_args` returns them verbatim, takes them neither from the
bootloader control block nor from the command file, and its entire
result is independent of the contents of both. -/
theorem get_args_live_precedence (argv : List (List Char))
    (rec : List Char) (cmdf : Option (List Char)) (sz : Nat)
    (h : 2 ≤ argv.length) :
    (get_args ⟨argv, rec, cmdf, sz⟩).argv = argv ∧
    (get_args ⟨argv, rec, cmdf, sz⟩).fromBootMessage = false ∧
    (get_args ⟨argv, rec, cmdf, sz⟩).fromCommandFile = false ∧
    (∀ (rec' : List Char) (cmdf' : Option (List Char)),
      get_args ⟨argv, rec, cmdf, sz⟩ = get_args ⟨argv, rec', cmdf', sz⟩) := by
  have hlen : ¬ (argv.length ≤ 1) := by omega
  have hgen : ∀ (r : List Char) (c : Option (List Char)),
      get_args ⟨argv, r, c, sz⟩ =
        { argv := argv, fromBootMessage := false, fromCommandFile := false,
          nullDeref := false,
          bootCommandOut := strlcpy "boot-recovery".data COMMAND_FIELD_SIZE,
          bootRecoveryOut := encode_recovery (argv.drop 1) sz } := by
    intro r c
    unfold get_args
    simp only [hlen, if_false]
  refine ⟨?_, ?_, ?_, fun rec' cmdf' => ?_⟩ <;> rw [hgen]
  · rw [hgen]

/-- Witness for `get_args_live_precedence`: a live invocation
`recovery --wipe_data` ignores a control block requesting an update and
a command file requesting a cache wipe. -/
theorem get_args_live_precedence_witness :
    (get_args ⟨["recovery".data, "--wipe_data".data],
        "recovery\n--update_package=/cache/a.zip\n".data,
        some "--wipe_cache\n".data, 1024⟩).argv =
      ["recovery".data, "--wipe_data".data] ∧
    get_args ⟨["recovery".data, "--wipe_data".data],
        "recovery\n--update_package=/cache/a.zip\n".data,
        some "--wipe_cache\n".data, 1024⟩ =
      get_args ⟨["recovery".data, "--wipe_data".data], [], none, 1024⟩ := by
  have h := get_args_live_precedence ["recovery".data, "--wipe_data".data]
    "recovery\n--update_package=/cache/a.zip\n".data
    (some "--wipe_cache\n".data) 1024 (by decide)
  exact ⟨h.1, h.2.2.2 [] none⟩

/-- C10: `get_args` is only safe when every command-file line contains
a character other than CR/LF.  A line consisting solely of CR/LF
characters tokenizes to nothing, so `strtok(buf, "\r\n")` returns
`NULL`, which the code passes straight to `strdup`: the model flags the
null-pointer dereference (undefined behaviour) whenever such a line is
among the (up to 99) lines read, and a command file whose first line is
blank always triggers it. -/
theorem get_args_blank_line_null_deref :
    (∀ line : List Char, line ≠ [] → (∀ c ∈ line, c = '\r' ∨ c = '\n') →
      (tokenize ['\r', '\n'] line).head? = none) ∧
    (∀ (argv : List (List Char)) (rec content : List Char) (sz : Nat),
      argv.length ≤ 1 → decode_bcb rec = none →
      none ∈ read_cmdfile_args (MAX_ARGS - 1) content →
      (get_args ⟨argv, rec, some content, sz⟩).nullDeref = true) ∧
    (∀ rest : List Char, none ∈ read_cmdfile_args (MAX_ARGS - 1) ('\n' :: rest)) := by
  refine ⟨?_, ?_, ?_⟩
  · intro line hne hcl
    rw [tokenize_all_delims _ line ?_]
    · rfl
    · intro c hc
      rcases hcl c hc with h | h <;> simp [h]
  · intro argv rec content sz hlen hdec hmem
    have hub := takeWhile_isSome_lt _ hmem
    simp [get_args, hlen, hdec, hub]
  · intro rest
    rw [show MAX_ARGS - 1 = 98 + 1 by norm_num [MAX_ARGS]]
    exact read_cmdfile_blank_first 98 rest

/-- Witness for `get_args_blank_line_null_deref`: an all-CR/LF line
yields no token, and a command file consisting of a single blank line
drives `get_args` (invoked with one live argument and an unusable
control block) into the `strdup(NULL)` dereference. -/
theorem get_args_blank_line_null_deref_witness :
    (tokenize ['\r', '\n'] ['\r', '\n']).head? = none ∧
    (get_args ⟨[['r']], [], some ['\n'], 1024⟩).nullDeref = true := by
  refine ⟨get_args_blank_line_null_deref.1 ['\r', '\n'] (by decide) (by decide), ?_⟩
  exact get_args_blank_line_null_deref.2.1 [['r']] [] ['\n'] 1024 (by decide)
    (by simp [decode_bcb, tokenize_nil])
    (get_args_blank_line_null_deref.2.2 [])

/-- C2: `finish_recovery` is idempotent.  Calling it twice with the
same session environment (same `send_intent`, locale and temporary-log
contents) yields exactly the state of the first call — in particular a
byte-identical cumulative log file — with the command file absent, no
warning from the second unlink, and an all-zero control block after
both calls. -/
theorem finish_recovery_idempotent (env : FinishEnv) (si : Option (List Char))
    (st : FinishState) (hmount : env.cacheMountOk = true)
    (hclear : env.bClearbootmessage = false) :
    (finish_recovery env si (finish_recovery env si st).1).1 =
      (finish_recovery env si st).1 ∧
    (finish_recovery env si (finish_recovery env si st).1).2 = false ∧
    (finish_recovery env si st).1.cmdFilePresent = false ∧
    (finish_recovery env si st).1.bcb = BcbState.zeroed ∧
    (finish_recovery env si (finish_recovery env si st).1).1.bcb = BcbState.zeroed := by
  have hdrop : ∀ (l : List Char) (n : Nat), l.drop (max n l.length) = [] :=
    fun l n => List.drop_eq_nil_of_le (le_max_right _ _)
  have hmax : ∀ a b : Nat, max (max a b) b = max a b := fun a b => by omega
  obtain ⟨loc, mok, tp, tl, tip, ti, up, cbm⟩ := env
  simp only at hmount hclear
  subst hmount hclear
  obtain ⟨inf, lof, lf, llf, lif, lm, lo, llm, lim, bcb, ff, ba, cf, off⟩ := st
  cases si <;> cases loc <;> cases tp <;> cases tip <;> cases ba <;>
    simp [finish_recovery, copy_log_file, hdrop, hmax]

/-- Witness for `finish_recovery_idempotent` at a concrete environment
and session state. -/
theorem finish_recovery_idempotent_witness :
    (finish_recovery finishEnvW (some "done".data)
        (finish_recovery finishEnvW (some "done".data) finishStW).1).1 =
      (finish_recovery finishEnvW (some "done".data) finishStW).1 ∧
    (finish_recovery finishEnvW (some "done".data)
        (finish_recovery finishEnvW (some "done".data) finishStW).1).2 = false ∧
    (finish_recovery finishEnvW (some "done".data) finishStW).1.cmdFilePresent = false ∧
    (finish_recovery finishEnvW (some "done".data) finishStW).1.bcb = BcbState.zeroed ∧
    (finish_recovery finishEnvW (some "done".data)
        (finish_recovery finishEnvW (some "done".data) finishStW).1).1.bcb =
      BcbState.zeroed :=
  finish_recovery_idempotent finishEnvW (some "done".data) finishStW rfl rfl

/-- C8: a key-wait timeout when text has never been shown ends the menu
with the automatic-reboot outcome; a timeout after text has ever been
shown is ignored, the loop continuing with the remaining key events;
the loop terminates with a chosen item exactly when that item's index
is `≥ 0`, and an invoke event at a non-negative highlight ends the loop
with exactly that index. -/
theorem menu_loop_timeout_and_termination (env : MenuEnv) :
    (∀ (v : Bool) (rest : List KeyEvent) (sel : Int),
      menu_loop env (⟨-1, v, false⟩ :: rest) sel = some .timeoutReboot) ∧
    (∀ (v : Bool) (rest : List KeyEvent) (sel : Int),
      menu_loop env (⟨-1, v, true⟩ :: rest) sel = menu_loop env rest sel) ∧
    (∀ (events : List KeyEvent) (sel c : Int),
      menu_loop env events sel = some (.chosen c) → 0 ≤ c) ∧
    (∀ (k : Int) (v ev : Bool) (rest : List KeyEvent) (sel : Int),
      k ≠ -1 → env.handleMenuKey k v = kInvokeItem → 0 ≤ sel →
      menu_loop env (⟨k, v, ev⟩ :: rest) sel = some (.chosen sel)) := by
  refine ⟨fun v rest sel => by simp [menu_loop], fun v rest sel => by simp [menu_loop],
    fun events => ?_, fun k v ev rest sel hk hact hsel => ?_⟩
  · induction events with
    | nil => intro sel c h; simp [menu_loop] at h
    | cons e rest ih =>
      intro sel c h
      unfold menu_loop at h
      by_cases hkey : e.key = -1
      · rw [if_pos hkey] at h
        by_cases hev : e.everVisible = true
        · rw [if_pos hev] at h; exact ih _ _ h
        · rw [if_neg hev] at h; simp at h
      · rw [if_neg hkey] at h
        by_cases hneg : env.handleMenuKey e.key e.visible < 0
        · rw [if_pos hneg] at h
          by_cases h1 : env.handleMenuKey e.key e.visible = kHighlightUp
          · rw [if_pos h1] at h; exact ih _ _ h
          · rw [if_neg h1] at h
            by_cases h2 : env.handleMenuKey e.key e.visible = kHighlightDown
            · rw [if_pos h2] at h; exact ih _ _ h
            · rw [if_neg h2] at h
              by_cases h3 : env.handleMenuKey e.key e.visible = kInvokeItem
              · rw [if_pos h3] at h
                by_cases h4 : (0 : Int) ≤ sel
                · rw [if_pos h4] at h
                  simp only [Option.some.injEq, MenuOutcome.chosen.injEq] at h
                  omega
                · rw [if_neg h4] at h; exact ih _ _ h
              · rw [if_neg h3] at h; exact ih _ _ h
        · rw [if_neg hneg] at h
          by_cases hm : env.menuOnly = true
          · rw [if_neg (by simp [hm])] at h; exact ih _ _ h
          · rw [if_pos (by simp [hm])] at h
            simp only [Option.some.injEq, MenuOutcome.chosen.injEq] at h
            omega
  · unfold menu_loop
    rw [if_neg hk, hact,
      if_pos (show kInvokeItem < 0 by decide),
      if_neg (show ¬ kInvokeItem = kHighlightUp by decide),
      if_neg (show ¬ kInvokeItem = kHighlightDown by decide),
      if_pos rfl, if_pos hsel]

/-- Witness for `menu_loop_timeout_and_termination` at the concrete
environment `menuEnvInvokeOn10`, a concrete event list and highlight. -/
theorem menu_loop_timeout_and_termination_witness :
    menu_loop menuEnvInvokeOn10 [⟨-1, true, false⟩] 0 = some .timeoutReboot ∧
    menu_loop menuEnvInvokeOn10 [⟨-1, true, true⟩, ⟨10, true, true⟩] 2 =
      menu_loop menuEnvInvokeOn10 [⟨10, true, true⟩] 2 ∧
    (0 : Int) ≤ 2 ∧
    menu_loop menuEnvInvokeOn10 [⟨10, true, true⟩] 2 = some (.chosen 2) := by
  have h := menu_loop_timeout_and_termination menuEnvInvokeOn10
  refine ⟨h.1 true [] 0, h.2.1 true [⟨10, true, true⟩] 2, ?_, ?_⟩
  · exact h.2.2.1 [⟨10, true, true⟩] 2 2
      (h.2.2.2 10 true true [] 2 (by decide) (by decide) (by decide))
  · exact h.2.2.2 10 true true [] 2 (by decide) (by decide) (by decide)

/-- C7: for every run of `clone_data_if_exist` in which the backup
partition name "databk" is not found in the scanned partition table,
the routine returns the not-found error `-1` and performs no write to
the data partition: the clone conversion is never invoked. -/
theorem clone_missing_databk_no_write (env : CloneEnv)
    (hscan : 0 < env.scanCount)
    (hmiss : mtd_find_partition_by_name env.partitions DATABK_PARTITION_NAME = none) :
    clone_data_if_exist env = ⟨-1, false⟩ := by
  unfold clone_data_if_exist
  rw [if_neg (by omega), hmiss]

/-- Witness for `clone_missing_databk_no_write` at a concrete partition
table holding "userdata" and "cache" but no "databk". -/
theorem clone_missing_databk_no_write_witness :
    clone_data_if_exist cloneEnvNoDatabk = ⟨-1, false⟩ :=
  clone_missing_databk_no_write cloneEnvNoDatabk (by decide) (by decide)

/-- C9: `get_fs_total_size` never reports failure to its caller.  Its
`size < 0` test on the unsigned `size_t` is always false; when `open`
or `read_ext` fails, the returned `-1` wraps to the maximum `size_t`
value `2 ^ w - 1`; and that value is indistinguishable from the return
for a device whose filesystem legitimately reports that size. -/
theorem get_fs_total_size_never_fails (w : Nat) :
    (∀ size : Nat, size_lt_zero size = false) ∧
    get_fs_total_size w true (-1) = 2 ^ w - 1 ∧
    (∀ r : Int, get_fs_total_size w false r = 2 ^ w - 1) ∧
    get_fs_total_size w true ((2 : Int) ^ w - 1) = get_fs_total_size w true (-1) := by
  have hpos : (0 : Int) < 2 ^ w := by positivity
  have hcast : ((2 : Int) ^ w) = ((2 ^ w : Nat) : Int) := by push_cast; ring
  have hwrap : size_t_wrap w (-1) = 2 ^ w - 1 := by
    unfold size_t_wrap
    have h1 : (-1 : Int) % 2 ^ w = 2 ^ w - 1 := by
      have h2 : ((2 : Int) ^ w - 1 + (-1) * 2 ^ w) % 2 ^ w = (2 ^ w - 1) % 2 ^ w :=
        Int.add_mul_emod_self
      have h3 : ((2 : Int) ^ w - 1 + (-1) * 2 ^ w) = -1 := by ring
      rw [h3] at h2
      rw [h2, Int.emod_eq_of_lt (by omega) (by omega)]
    rw [h1]
    omega
  refine ⟨fun size => by simp [size_lt_zero], ?_, fun r => ?_, ?_⟩
  · simp [get_fs_total_size, size_lt_zero, hwrap]
  · simp [get_fs_total_size, size_lt_zero, hwrap]
  · have hsame : size_t_wrap w ((2 : Int) ^ w - 1) = size_t_wrap w (-1) := by
      unfold size_t_wrap
      have h1 : ((2 : Int) ^ w - 1) % 2 ^ w = 2 ^ w - 1 :=
        Int.emod_eq_of_lt (by omega) (by omega)
      have h2 : (-1 : Int) % 2 ^ w = 2 ^ w - 1 := by
        have h3 : ((2 : Int) ^ w - 1 + (-1) * 2 ^ w) % 2 ^ w = (2 ^ w - 1) % 2 ^ w :=
          Int.add_mul_emod_self
        have h4 : ((2 : Int) ^ w - 1 + (-1) * 2 ^ w) = -1 := by ring
        rw [h4] at h3
        rw [h3, Int.emod_eq_of_lt (by omega) (by omega)]
      rw [h1, h2]
    simp [get_fs_total_size, size_lt_zero, hsame]

/-- C5: a superblock whose magic differs from the ext4 signature is
rejected with the error return `-1` before any block-group-descriptor
read is attempted; so is one with correct magic but cleared valid-state
bit; on success `read_ext` returns the filesystem's reported total byte
length. -/
theorem read_ext_superblock_validation (env : ReadExtEnv) :
    (env.sb.s_magic ≠ EXT4_SUPER_MAGIC → read_ext env = ⟨-1, false⟩) ∧
    (env.sb.s_magic = EXT4_SUPER_MAGIC →
      env.sb.s_state &&& EXT4_VALID_FS ≠ EXT4_VALID_FS →
      read_ext env = ⟨-1, false⟩) ∧
    (env.seekSbOk = true → env.sbReadRet = (SIZEOF_EXT4_SB : Int) →
      test_sb env.sb = 0 → env.seekLenOk = true → env.seekBgOk = true →
      env.bgReadRet = ((ext4_block_size env.sb * env.bgDescBlocks : Nat) : Int) →
      ext4_info_len env.sb < 2 ^ 31 →
      read_ext env = ⟨(ext4_info_len env.sb : Int), true⟩) := by
  refine ⟨?_, ?_, ?_⟩
  · intro hmagic
    have htsb : test_sb env.sb ≠ 0 := by
      unfold test_sb
      rw [if_pos hmagic]
      decide
    unfold read_ext
    split_ifs <;> simp_all
  · intro hmagic hstate
    have htsb : test_sb env.sb ≠ 0 := by
      unfold test_sb
      rw [if_neg (by simp [hmagic]), if_pos hstate]
      decide
    unfold read_ext
    split_ifs <;> simp_all
  · intro h1 h2 h3 h4 h5 h6 h7
    have hc : c_int_of_nat (ext4_info_len env.sb) = (ext4_info_len env.sb : Int) := by
      have hm : ext4_info_len env.sb % 2 ^ 32 = ext4_info_len env.sb :=
        Nat.mod_eq_of_lt (by omega)
      unfold c_int_of_nat
      rw [hm, if_pos (by omega)]
    unfold read_ext
    rw [if_neg (by simp [h1]), if_neg (by omega), if_neg (by omega),
      if_neg (by simp [h3]), if_neg (by simp [h4]), if_neg (by simp [h5]),
      if_neg (by omega), if_neg (by omega), hc]

/-- Witness for `read_ext_superblock_validation`: the three conjuncts
evaluated at concrete environments — a superblock with wrong magic, one
with correct magic but cleared state bit, and a fully valid one. -/
theorem read_ext_superblock_validation_witness :
    read_ext ⟨true, 1024, ⟨0, 1, 0, 8⟩, true, true, 1024, 1⟩ = ⟨-1, false⟩ ∧
    read_ext ⟨true, 1024, ⟨0xEF53, 0, 0, 8⟩, true, true, 1024, 1⟩ = ⟨-1, false⟩ ∧
    read_ext ⟨true, 1024, ⟨0xEF53, 1, 0, 8⟩, true, true, 1024, 1⟩ = ⟨(8192 : Int), true⟩ := by
  refine ⟨?_, ?_, ?_⟩
  · exact (read_ext_superblock_validation _).1 (by decide)
  · exact (read_ext_superblock_validation _).2.1 (by decide) (by decide)
  · have h := (read_ext_superblock_validation
      ⟨true, 1024, ⟨0xEF53, 1, 0, 8⟩, true, true, 1024, 1⟩).2.2
      rfl (by decide) (by decide) rfl rfl (by decide) (by decide)
    simpa [ext4_info_len, ext4_block_size] using h

/-- C4: `erase_volume` on `"/cache"` resets the log-copy offset to zero
(before invoking the format provider), so the next appending
`copy_log_file` reads the temporary log starting from byte 0 and copies
it whole; erasing any other volume leaves the offset unchanged. -/
theorem erase_volume_log_offset (formatResult : Int) (off : Nat) :
    (erase_volume formatResult "/cache" off).2 = 0 ∧
    (∀ v : String, v ≠ "/cache" → (erase_volume formatResult v off).2 = off) ∧
    (∀ src dest : List Char,
      copy_log_file true true src dest true (erase_volume formatResult "/cache" off).2 =
        (dest ++ src, src.length)) := by
  refine ⟨rfl, fun v hv => ?_, fun src dest => ?_⟩
  · simp [erase_volume, hv]
  · simp [erase_volume, copy_log_file]

lemma no_write_nil :
    ∀ op ∈ ([] : List DevOp), ∀ (sec : Nat) (data : List Nat),
      op ≠ DevOp.writeSec sec data := by
  simp

lemma no_write_open_read :
    ∀ op ∈ ([DevOp.openDev, DevOp.readSec 0] : List DevOp),
      ∀ (sec : Nat) (data : List Nat), op ≠ DevOp.writeSec sec data := by
  intro op hop sec data
  have h : op = DevOp.openDev ∨ op = DevOp.readSec 0 := by simpa using hop
  rcases h with h | h <;> subst h <;> simp

/-- C6 (amended): for every call of `set_fat32_volumename` with a name
of length 0, the call fails with a negative error code and performs no
device write; the non-empty validation of the name, however, sits after
the boot-sector read, so "before any access to the raw device" holds
only for writes (see the counterexample). -/
theorem fat32_empty_name_no_write (env : FatEnv) (fuel : Nat) (name : List Char)
    (hname : name.length = 0) :
    (∀ op ∈ (set_fat32_volumename env name fuel).1,
      ∀ (sec : Nat) (data : List Nat), op ≠ DevOp.writeSec sec data) ∧
    (∃ e : Int, (set_fat32_volumename env name fuel).2 = some e ∧ e < 0) := by
  unfold set_fat32_volumename
  split_ifs <;>
    first
      | exact ⟨no_write_nil, ⟨_, rfl, by norm_num⟩⟩
      | exact ⟨no_write_open_read, ⟨_, rfl, by norm_num⟩⟩

/-- Witness for `fat32_empty_name_no_write` at the concrete device
`fatEnvValidDbr`. -/
theorem fat32_empty_name_no_write_witness :
    (∀ op ∈ (set_fat32_volumename fatEnvValidDbr [] 1).1,
      ∀ (sec : Nat) (data : List Nat), op ≠ DevOp.writeSec sec data) ∧
    (∃ e : Int, (set_fat32_volumename fatEnvValidDbr [] 1).2 = some e ∧ e < 0) :=
  fat32_empty_name_no_write fatEnvValidDbr 1 [] rfl

set_option maxRecDepth 100000 in
/-- Counterexample to C6 as stated: on a device whose boot sector
passes all DBR checks, the empty-name call fails with `-8`, but its
device trace already holds the `open` and the boot-sector read — the
name is NOT validated before any access to the raw device, only before
any write. -/
theorem fat32_empty_name_counterexample :
    (set_fat32_volumename fatEnvValidDbr [] 1).1 =
      [DevOp.openDev, DevOp.readSec 0] ∧
    (set_fat32_volumename fatEnvValidDbr [] 1).2 = some (-8) ∧
    (set_fat32_volumename fatEnvValidDbr [] 1).1 ≠ [] := by
  refine ⟨by decide, by decide, by decide⟩

/-- Witness for `erase_volume_log_offset` at a concrete volume name,
offset and log contents. -/
theorem erase_volume_log_offset_witness :
    (erase_volume 0 "/cache" 7).2 = 0 ∧
    (erase_volume 0 "/data" 7).2 = 7 ∧
    copy_log_file true true "ab".data "z".data true (erase_volume 0 "/cache" 7).2 =
      ("zab".data, 2) := by
  refine ⟨(erase_volume_log_offset 0 7).1, ?_, ?_⟩
  · exact (erase_volume_log_offset 0 7).2.1 "/data" (by decide)
  · have h := (erase_volume_log_offset 0 7).2.2 "ab".data "z".data
    simpa using h

end Recovery
